import Mathlib

/-!
Verification of the GlobaLens batch ingestion pipeline
(`process-articles/process_articles.py`) against its design specification.

The Python source is shallowly embedded: pure fragments become Lean
functions; external collaborators (the HTTP client, the codec registry,
`datetime.strptime`, the embedding model, the object store) are modelled
as explicit parameters or small state values; caught Python exceptions
become `Option`/`Except` results.  Bytes are natural numbers below 256.
Embedding vectors are abstracted as integer lists: the pipeline only ever
tests them for truthiness, never inspects entries.
-/

namespace GlobaLens

/-- Does `sep` occur at the head of the character list? -/
def leadsWith : List Char → List Char → Bool
  | [], _ => true
  | _ :: _, [] => false
  | a :: as, b :: bs => a == b && leadsWith as bs

/-- Python `str.split(sep)` on character lists for a nonempty separator:
left-to-right, non-overlapping.  The first argument is evaluation fuel,
instantiated with the length of the string being split. -/
def splitOnAux (sep : List Char) : Nat → List Char → List (List Char)
  | _, [] => [[]]
  | 0, l => [l]
  | Nat.succ fuel, c :: rest =>
    if leadsWith sep (c :: rest) && !sep.isEmpty then
      [] :: splitOnAux sep fuel (List.drop sep.length (c :: rest))
    else
      match splitOnAux sep fuel rest with
      | [] => [[c]]
      | h :: t => (c :: h) :: t

/-- Python `str.split(sep)` for a nonempty separator. -/
def pySplit (sep s : String) : List String :=
  (splitOnAux sep.data s.data.length s.data).map String.mk

/-- Python substring test `needle in hay`.  Mirrors the membership tests
the source performs on header strings. -/
def pyIn (needle hay : String) : Bool :=
  needle == "" || (pySplit needle hay).length ≥ 2

/-- Python whitespace, as recognised by `str.strip()`. -/
def isPySpace (c : Char) : Bool :=
  c == ' ' || c == '\t' || c == '\n' || c == '\r' || c == '\x0b' || c == '\x0c'

/-- Python `str.strip()`. -/
def pyStrip (s : String) : String :=
  String.mk (((s.data.dropWhile isPySpace).reverse.dropWhile isPySpace).reverse)

/-- Python `str.lower()` (ASCII part, which is all the header strings of
the source use). -/
def pyLower (s : String) : String :=
  String.mk (s.data.map Char.toLower)

/-- Python `str.startswith(p)`. -/
def pyStartsWith (s p : String) : Bool :=
  leadsWith p.data s.data

/-- Python `str.endswith(p)`. -/
def pyEndsWith (s p : String) : Bool :=
  leadsWith p.data.reverse s.data.reverse

/-- Joining with a separator, used to express Python `str.replace`. -/
def joinWith (sep : List Char) : List (List Char) → List Char
  | [] => []
  | [x] => x
  | x :: y :: rest => x ++ sep ++ joinWith sep (y :: rest)

/-- Python `s.replace(old, new)` for a nonempty `old`: replace every
occurrence, which is `new.join(s.split(old))`. -/
def pyReplace (s old new : String) : String :=
  String.mk (joinWith new.data (splitOnAux old.data s.data.length s.data))

/-- Charset extraction from a (lower-cased) Content-Type header, as in
`fetch_html`: if the header mentions a charset parameter, take the text
after the last `charset=`, cut at the next semicolon, and trim it. -/
def declaredCharset (ctLower : String) : Option String :=
  if pyIn "charset=" ctLower then
    some (pyStrip ((pySplit ";" (((pySplit "charset=" ctLower).getLast?).getD "")).headD ""))
  else
    none

/-- Continuation byte test for strict UTF-8 decoding. -/
def isCont (c : Nat) : Bool := 128 ≤ c && c ≤ 191

/-- Strict UTF-8 decoding of a byte sequence, as performed by
`bytes.decode("utf-8", errors="strict")`: rejects overlong encodings,
surrogate code points, code points above U+10FFFF and truncated
sequences. -/
def utf8Decode : List Nat → Option (List Char)
  | [] => some []
  | b :: rest =>
    if b < 128 then
      (utf8Decode rest).map (fun cs => Char.ofNat b :: cs)
    else if 194 ≤ b && b ≤ 223 then
      match rest with
      | c1 :: rest1 =>
        if isCont c1 then
          (utf8Decode rest1).map (fun cs => Char.ofNat ((b - 192) * 64 + (c1 - 128)) :: cs)
        else none
      | [] => none
    else if 224 ≤ b && b ≤ 239 then
      match rest with
      | c1 :: c2 :: rest2 =>
        if (if b = 224 then 160 ≤ c1 && c1 ≤ 191
            else if b = 237 then 128 ≤ c1 && c1 ≤ 159
            else isCont c1) && isCont c2 then
          (utf8Decode rest2).map (fun cs =>
            Char.ofNat ((b - 224) * 4096 + (c1 - 128) * 64 + (c2 - 128)) :: cs)
        else none
      | _ => none
    else if 240 ≤ b && b ≤ 244 then
      match rest with
      | c1 :: c2 :: c3 :: rest3 =>
        if (if b = 240 then 144 ≤ c1 && c1 ≤ 191
            else if b = 244 then 128 ≤ c1 && c1 ≤ 143
            else isCont c1) && isCont c2 && isCont c3 then
          (utf8Decode rest3).map (fun cs =>
            Char.ofNat ((b - 240) * 262144 + (c1 - 128) * 4096 + (c2 - 128) * 64 + (c3 - 128)) :: cs)
        else none
      | _ => none
    else none

/-- Latin-1 decoding, as performed by `bytes.decode("latin-1")`: each
byte value below 256 maps directly to the code point of the same value.
The guard mirrors the fact that the Python `bytes` type only ever holds
values below 256, so on genuine byte strings this decode cannot fail. -/
def latin1Decode (raw : List Nat) : Option String :=
  if raw.all (fun b => b < 256) then
    some (String.mk (raw.map Char.ofNat))
  else
    none

/-- The outcome of decoding with the charset declared in the header, in
`fetch_html`: a `LookupError` (unknown codec name) and a
`UnicodeDecodeError` are both caught and leave `decoded_text` unset.
`codecs` abstracts the Python codec registry. -/
def declaredDecode (codecs : String → Option (List Nat → Option String))
    (charset : Option String) (raw : List Nat) : Option String :=
  match charset with
  | none => none
  | some cs =>
    match codecs cs with
    | none => none
    | some dec => dec raw

/-- The decode fallback chain of `fetch_html`: declared charset first,
then strict UTF-8, then Latin-1; when even Latin-1 fails the function
gives up (the "critical decode failure" branch). -/
def decodeBody (codecs : String → Option (List Nat → Option String))
    (charset : Option String) (raw : List Nat) : Option String :=
  match declaredDecode codecs charset raw with
  | some t => some t
  | none =>
    match utf8Decode raw with
    | some cs => some (String.mk cs)
    | none => latin1Decode raw

/-- A concrete two-entry codec registry used to instantiate witnesses:
the registry itself is an external collaborator of the source. -/
def sampleCodecs : String → Option (List Nat → Option String) :=
  fun name =>
    if name = "utf-8" then some (fun raw => (utf8Decode raw).map String.mk)
    else if name = "latin-1" then some latin1Decode
    else none

/-- The one network interaction of `fetch_html`, seen from the decoder:
either the request raised (`catchable` marks an `Exception` subclass,
which the `except Exception` handler of the source absorbs; classes
outside `Exception` such as cancellation are not catchable there), or a response arrived
with a status, a Content-Type header and a body. -/
inductive ReqOutcome
  | raised (catchable : Bool)
  | response (status : Nat) (contentType : String) (body : List Nat)
deriving DecidableEq

/-- `fetch_html`: returns `(url, text)` or the absence marker
`(url, none)`.  `raise_for_status` raises `ClientResponseError` for any
status of 400 or more, which the outer handler turns into absence; a
body that decodes to an empty string, or a Content-Type that mentions
neither `text/html` nor `text/plain`, also yields absence.  `.error`
marks the one way an exception escapes: a raised non-`Exception`. -/
def fetch_html (codecs : String → Option (List Nat → Option String))
    (url : String) (out : ReqOutcome) : Except Unit (String × Option String) :=
  match out with
  | .raised catchable => if catchable then .ok (url, none) else .error ()
  | .response status ct body =>
    if 400 ≤ status then .ok (url, none)
    else
      let ctLower := pyLower ct
      match decodeBody codecs (declaredCharset ctLower) body with
      | none => .ok (url, none)
      | some text =>
        if (text != "") && (pyIn "text/html" ctLower || pyIn "text/plain" ctLower) then
          .ok (url, some text)
        else
          .ok (url, none)

/-- Claim C3: the decode fallback of `fetch_html` is deterministic and
staged — the declared-charset decode wins when it succeeds; strict UTF-8
is consulted only when the declared decode is absent or failed; Latin-1
(and, through it, the give-up branch) only when UTF-8 also failed. -/
theorem decode_fallback_order
    (codecs : String → Option (List Nat → Option String))
    (charset : Option String) (raw : List Nat) :
    (∀ t, declaredDecode codecs charset raw = some t →
        decodeBody codecs charset raw = some t) ∧
    (declaredDecode codecs charset raw = none →
      ∀ cs, utf8Decode raw = some cs →
        decodeBody codecs charset raw = some (String.mk cs)) ∧
    (declaredDecode codecs charset raw = none →
      utf8Decode raw = none →
        decodeBody codecs charset raw = latin1Decode raw) := by
  refine ⟨?_, ?_, ?_⟩ <;> intros <;> simp_all [decodeBody]

/-- Witness for C3: a one-byte ASCII body with no declared charset is
decoded by the UTF-8 stage. -/
theorem decode_fallback_order_witness :
    decodeBody sampleCodecs none [104] = some (String.mk ['h']) :=
  (decode_fallback_order sampleCodecs none [104]).2.1 (by decide) ['h'] (by decide)

/-- Claim C10: on genuine byte strings Latin-1 decoding is total, so the
critical-failure branch of the fallback chain is unreachable: whenever
the declared-charset and UTF-8 stages both fail, `decodeBody` still
produces the Latin-1 text. -/
theorem latin1_total_no_critical_failure
    (codecs : String → Option (List Nat → Option String))
    (charset : Option String) (raw : List Nat)
    (hbytes : ∀ b ∈ raw, b < 256)
    (hdecl : declaredDecode codecs charset raw = none)
    (hutf8 : utf8Decode raw = none) :
    latin1Decode raw = some (String.mk (raw.map Char.ofNat)) ∧
    decodeBody codecs charset raw = some (String.mk (raw.map Char.ofNat)) := by
  have h1 : raw.all (fun b => decide (b < 256)) = true := by
    rw [List.all_eq_true]
    intro b hb
    simpa using hbytes b hb
  have h2 : latin1Decode raw = some (String.mk (raw.map Char.ofNat)) := by
    simp [latin1Decode]
    intro b hb
    exact hbytes b hb
  exact ⟨h2, by simp [decodeBody, hdecl, hutf8, h2]⟩

/-- Witness for C10: the body `[0xFF]` fails strict UTF-8 but decodes to
Latin-1 text. -/
theorem latin1_total_no_critical_failure_witness :
    decodeBody sampleCodecs none [255] = some (String.mk [Char.ofNat 255]) :=
  (latin1_total_no_critical_failure sampleCodecs none [255]
      (by decide) (by decide) (by decide)).2

/-- Claim C8 counterexample: a 300 Multiple Choices response carrying a
decodable `text/html` body is returned as content, not as the absence
marker — `raise_for_status` only raises for status 400 and above, so
"non-2xx implies absence" fails at status 300. -/
theorem fetch_html_status300_counterexample :
    fetch_html sampleCodecs "http://e/multi"
        (.response 300 "text/html; charset=utf-8" [104, 105])
      = .ok ("http://e/multi", some "hi") := by rfl

/-- Claim C8 (amended): `fetch_html` never lets an `Exception` escape —
every catchable outcome produces an `.ok` result — and raised catchable
errors (timeouts, connection errors), statuses of 400 and above,
undecodable bodies and non-text content types each yield the absence
marker `(url, none)`. -/
theorem fetch_html_failures_are_absence
    (codecs : String → Option (List Nat → Option String))
    (url : String) (out : ReqOutcome)
    (hc : ∀ b, out = .raised b → b = true) :
    (∃ r, fetch_html codecs url out = .ok r) ∧
    (∀ b, out = .raised b → fetch_html codecs url out = .ok (url, none)) ∧
    (∀ status ct body, out = .response status ct body → 400 ≤ status →
        fetch_html codecs url out = .ok (url, none)) ∧
    (∀ status ct body, out = .response status ct body →
        decodeBody codecs (declaredCharset (pyLower ct)) body = none →
        fetch_html codecs url out = .ok (url, none)) ∧
    (∀ status ct body, out = .response status ct body →
        pyIn "text/html" (pyLower ct) = false →
        pyIn "text/plain" (pyLower ct) = false →
        fetch_html codecs url out = .ok (url, none)) := by
  refine ⟨?_, ?_, ?_, ?_, ?_⟩
  · cases out with
    | raised b =>
      have hb : b = true := hc b rfl
      subst hb
      exact ⟨(url, none), rfl⟩
    | response status ct body =>
      simp only [fetch_html]
      split
      · exact ⟨(url, none), rfl⟩
      · cases hdec : decodeBody codecs (declaredCharset (pyLower ct)) body with
        | none => exact ⟨(url, none), by simp [hdec]⟩
        | some text =>
          by_cases hcond :
              ((text != "") && (pyIn "text/html" (pyLower ct) || pyIn "text/plain" (pyLower ct))) = true
          · exact ⟨(url, some text), by simp [hdec, hcond]⟩
          · exact ⟨(url, none), by simp [hdec, hcond]⟩
  · intro b hout
    subst hout
    have hb : b = true := hc b rfl
    subst hb
    rfl
  · intro status ct body hout hst
    subst hout
    simp [fetch_html, hst]
  · intro status ct body hout hdec
    subst hout
    simp only [fetch_html]
    split
    · rfl
    · simp [hdec]
  · intro status ct body hout h1 h2
    subst hout
    simp only [fetch_html]
    split
    · rfl
    · cases hdec : decodeBody codecs (declaredCharset (pyLower ct)) body with
      | none => simp [hdec]
      | some text => simp [hdec, h1, h2]

/-- Witness for the amended C8: a catchable raised error (a timeout)
yields the absence marker. -/
theorem fetch_html_failures_are_absence_witness :
    fetch_html sampleCodecs "http://e/t" (.raised true) = .ok ("http://e/t", none) :=
  (fetch_html_failures_are_absence sampleCodecs "http://e/t" (.raised true)
      (by intro b hb; cases hb; rfl)).2.1 true rfl

/-- One row of a cleaned batch CSV: `SQLDATE`, `NumMentions`,
`SOURCEURL`, `latitude`, `longitude`.  `none` models a null cell;
numeric and date cells are carried opaquely, the pipeline never computes
with them. -/
structure SourceRow where
  sqldate : Option String
  numMentions : Option Int
  sourceurl : Option String
  latitude : Option String
  longitude : Option String
deriving DecidableEq

/-- One line of the intermediate NDJSON log, as written by the consumer:
`url` plus the parse result fields, `error` null on success. -/
structure LogEntry where
  url : String
  title : Option String
  text : Option String
  summary : Option String
  keywords : Option (List String)
  error : Option String
deriving DecidableEq

/-- The content fields `newspaper3k` yields on a successful parse. -/
structure ParseFields where
  title : String
  text : String
  summary : String
  keywords : List String
deriving DecidableEq

/-- The dictionary `parse_article` returns (everything but the url).
`none` models JSON null. -/
structure ParseResult where
  title : Option String
  text : Option String
  summary : Option String
  keywords : Option (List String)
  error : Option String
deriving DecidableEq

/-- `parse_article`: runs the extractor (`impl` models `newspaper3k`,
its `.error e` a raised exception rendered as `TypeName: message`) and
on any exception returns all-null fields with a `parse_error` marker. -/
def parse_article (impl : String → String → Except String ParseFields)
    (html url : String) : ParseResult :=
  match impl html url with
  | .ok f => ⟨some f.title, some f.text, some f.summary, some f.keywords, none⟩
  | .error e => ⟨none, none, none, none, some ("parse_error: " ++ e)⟩

/-- The handling by the consumer of one dequeued `(url, html)` item: a `none`
html (upstream fetch failure) short-circuits to a `download_failed`
marker; a raised executor error (`executorFault`) becomes a
`parse_error` marker; otherwise the `parse_article` result is used. -/
def consumerRecord (impl : String → String → Except String ParseFields)
    (executorFault : String → String → Option String)
    (url : String) (html : Option String) : ParseResult :=
  match html with
  | none => ⟨none, none, none, none, some "download_failed"⟩
  | some h =>
    match executorFault h url with
    | some e => ⟨none, none, none, none, some ("parse_error: " ++ e)⟩
    | none => parse_article impl h url

/-- The NDJSON line appended for one queue item: the url merged with the
parse result of the consumer. -/
def logEntryFor (impl : String → String → Except String ParseFields)
    (executorFault : String → String → Option String)
    (fetched : String → Option String) (url : String) : LogEntry :=
  let r := consumerRecord impl executorFault url (fetched url)
  ⟨url, r.title, r.text, r.summary, r.keywords, r.error⟩

/-- The whole fetch-parse pipeline for one batch, observed at the
intermediate log: the producer completes fetches in some arrival order
(a permutation of the submitted urls — `as_completed` gives no ordering
guarantee) and every completed item is appended as exactly one line. -/
def pipelineLog (impl : String → String → Except String ParseFields)
    (executorFault : String → String → Option String)
    (fetched : String → Option String) (arrival : List String) : List LogEntry :=
  arrival.map (logEntryFor impl executorFault fetched)

/-- First-occurrence deduplication, as `pandas.Series.unique` performs
after `dropna`; `seen` accumulates the values already emitted. -/
def dedupFirstAux : List String → List String → List String
  | _, [] => []
  | seen, x :: xs =>
    if x ∈ seen then dedupFirstAux seen xs else x :: dedupFirstAux (x :: seen) xs

/-- First-occurrence deduplication of a url list. -/
def dedupFirst (l : List String) : List String := dedupFirstAux [] l

/-- `df_cleaned_csv["SOURCEURL"].dropna().unique().tolist()`: the urls
submitted to the fetch stage. -/
def urls_to_fetch (rows : List SourceRow) : List String :=
  dedupFirst (rows.filterMap (fun r => r.sourceurl))

theorem mem_dedupFirstAux (u : String) (l : List String) :
    ∀ seen, u ∈ dedupFirstAux seen l ↔ u ∈ l ∧ u ∉ seen := by
  induction l with
  | nil => intro seen; simp [dedupFirstAux]
  | cons x xs ih =>
    intro seen
    by_cases hx : x ∈ seen
    · rw [dedupFirstAux, if_pos hx, ih]
      constructor
      · rintro ⟨h1, h2⟩
        exact ⟨List.mem_cons_of_mem _ h1, h2⟩
      · rintro ⟨h1, h2⟩
        rcases List.mem_cons.mp h1 with h | h
        · exact absurd (h ▸ hx) h2
        · exact ⟨h, h2⟩
    · rw [dedupFirstAux, if_neg hx]
      rw [List.mem_cons, ih]
      constructor
      · rintro (h | ⟨h1, h2⟩)
        · subst h; exact ⟨List.mem_cons_self _ _, hx⟩
        · refine ⟨List.mem_cons_of_mem _ h1, fun hs => h2 (List.mem_cons_of_mem _ hs)⟩
      · rintro ⟨h1, h2⟩
        rcases List.mem_cons.mp h1 with h | h
        · exact Or.inl h
        · by_cases hux : u = x
          · exact Or.inl hux
          · exact Or.inr ⟨h, fun hs => by
              rcases List.mem_cons.mp hs with h3 | h3
              · exact hux h3
              · exact h2 h3⟩

theorem nodup_dedupFirstAux (l : List String) :
    ∀ seen, (dedupFirstAux seen l).Nodup := by
  induction l with
  | nil => intro seen; simp [dedupFirstAux]
  | cons x xs ih =>
    intro seen
    by_cases hx : x ∈ seen
    · rw [dedupFirstAux, if_pos hx]; exact ih seen
    · rw [dedupFirstAux, if_neg hx]
      refine List.nodup_cons.mpr ⟨fun hmem => ?_, ih (x :: seen)⟩
      exact ((mem_dedupFirstAux x xs (x :: seen)).mp hmem).2 (List.mem_cons_self _ _)

theorem nodup_urls_to_fetch (rows : List SourceRow) : (urls_to_fetch rows).Nodup :=
  nodup_dedupFirstAux _ []

/-- Claim C1: after a completed pipeline pass, the intermediate log has
exactly one entry per distinct non-null submitted `SOURCEURL`: the log
length equals the number of submitted urls, every submitted url appears
on exactly one line, and every line carries a submitted url. -/
theorem log_one_entry_per_submitted_url
    (impl : String → String → Except String ParseFields)
    (executorFault : String → String → Option String)
    (fetched : String → Option String)
    (rows : List SourceRow) (arrival : List String)
    (hperm : arrival.Perm (urls_to_fetch rows)) :
    (pipelineLog impl executorFault fetched arrival).length
        = (urls_to_fetch rows).length ∧
    (∀ u ∈ urls_to_fetch rows,
      ((pipelineLog impl executorFault fetched arrival).filter
          (fun e => e.url == u)).length = 1) ∧
    (∀ e ∈ pipelineLog impl executorFault fetched arrival,
      e.url ∈ urls_to_fetch rows) := by
  refine ⟨by simp [pipelineLog, hperm.length_eq], ?_, ?_⟩
  · intro u hu
    have hcount : arrival.count u = 1 := by
      rw [hperm.count_eq]
      exact List.count_eq_one_of_mem (nodup_urls_to_fetch rows) hu
    rw [← List.countP_eq_length_filter, pipelineLog, List.countP_map]
    have : ∀ v : String, ((logEntryFor impl executorFault fetched v).url == u)
        = (v == u) := by
      intro v; rfl
    calc arrival.countP (fun v => (logEntryFor impl executorFault fetched v).url == u)
        = arrival.countP (fun v => v == u) := by
          apply List.countP_congr; intro v _; simp [this v]
      _ = arrival.count u := rfl
      _ = 1 := hcount
  · intro e he
    rcases List.mem_map.mp he with ⟨v, hv, hev⟩
    have : e.url = v := by rw [← hev]; rfl
    rw [this]
    exact hperm.mem_iff.mp hv

/-- Witness for C1: a three-row batch with a duplicate and a null url
submits two urls and yields a two-line log, one line per url. -/
theorem log_one_entry_per_submitted_url_witness :
    (pipelineLog (fun _ _ => .error "ValueError: boom") (fun _ _ => none)
        (fun u => if u = "http://x/a" then some "<html></html>" else none)
        ["http://x/b", "http://x/a"]).length = 2 ∧
    ((pipelineLog (fun _ _ => .error "ValueError: boom") (fun _ _ => none)
        (fun u => if u = "http://x/a" then some "<html></html>" else none)
        ["http://x/b", "http://x/a"]).filter
          (fun e => e.url == "http://x/a")).length = 1 := by
  have h := log_one_entry_per_submitted_url
    (fun _ _ => .error "ValueError: boom") (fun _ _ => none)
    (fun u => if u = "http://x/a" then some "<html></html>" else none)
    [⟨none, none, some "http://x/a", none, none⟩,
     ⟨none, none, none, none, none⟩,
     ⟨none, none, some "http://x/a", none, none⟩,
     ⟨none, none, some "http://x/b", none, none⟩]
    ["http://x/b", "http://x/a"]
    (by decide)
  exact ⟨by rw [h.1]; decide, h.2.1 "http://x/a" (by decide)⟩

/-- The document shape assembled in the merge loop and bulk-inserted.
For dictionary keys the outer `Option` is key presence (`none` = key
absent); the inner `Option` of `summary_embedding` is an explicit JSON null.
Embedding vectors are abstracted as integer lists (the source only ever
tests them for truthiness). -/
structure EnrichedRecord where
  sqldate : Option String
  numMentions : Option Int
  sourceurl : Option String
  latitude : Option String
  longitude : Option String
  url : Option String
  title : Option String
  text : Option String
  summary : Option String
  keywords : Option (List String)
  error : Option String
  summary_embedding : Option (Option (List Int))
  embedding_error : Option String
deriving DecidableEq

/-- `get_embeddings`: only the `sentencetransformer` type is supported;
a model that failed to load, a null text, or an encoder failure all
yield `None`.  `encode` models `SentenceTransformer.encode` composed
with `.tolist()`, with `none` standing for a raised exception. -/
def get_embeddings (encode : String → Option (List Int)) (modelLoaded : Bool)
    (text : Option String) (embeddingType : String) : Option (List Int) :=
  if embeddingType = "sentencetransformer" then
    if modelLoaded then
      match text with
      | none => none
      | some t => encode t
    else none
  else none

/-- The NDJSON dictionary comprehension keyed by article url, followed
by a key lookup: the last entry with the given url wins. -/
def ndjsonLookup (log : List LogEntry) (u : String) : Option LogEntry :=
  (log.filter (fun a => a.url == u)).getLast?

/-- The Python truthiness test guarding the embedding call:
`summary_text and isinstance(summary_text, str) and
summary_text.strip() and summary_text != null-string`. -/
def summaryTruthy : Option String → Bool
  | none => false
  | some t => (t != "") && (pyStrip t != "") && (t != "null")

/-- `csv_row_data` copied into `combined_article`: the base record
before any NDJSON data is merged in. -/
def baseRecord (row : SourceRow) : EnrichedRecord :=
  { sqldate := row.sqldate, numMentions := row.numMentions,
    sourceurl := row.sourceurl, latitude := row.latitude,
    longitude := row.longitude,
    url := none, title := none, text := none, summary := none,
    keywords := none, error := none, summary_embedding := none,
    embedding_error := none }

/-- One iteration of the merge loop for one CSV row: when the url of the row
has an NDJSON entry, every key except `error` is copied in
(`if k != error-key`), then the summary either triggers an embedding
attempt (success attaches the vector; a falsy result records
`embedding_generation_failed`) or `summary_embedding` is set to an
explicit null; when there is no NDJSON entry (including a null url,
which is never a dictionary key), the row gets null content fields and
the `no_ndjson_match` marker. -/
def mergeRow (encode : String → Option (List Int)) (modelLoaded : Bool)
    (log : List LogEntry) (row : SourceRow) : EnrichedRecord :=
  let base := baseRecord row
  let found : Option LogEntry :=
    match row.sourceurl with
    | some u => ndjsonLookup log u
    | none => none
  match found with
  | some a =>
    let withContent := { base with
      url := some a.url,
      title := a.title,
      text := a.text,
      summary := a.summary,
      keywords := a.keywords }
    if summaryTruthy a.summary then
      match get_embeddings encode modelLoaded a.summary "sentencetransformer" with
      | some v =>
        if v.isEmpty then
          { withContent with embedding_error := some "embedding_generation_failed" }
        else
          { withContent with summary_embedding := some (some v) }
      | none =>
        { withContent with embedding_error := some "embedding_generation_failed" }
    else
      { withContent with summary_embedding := some none }
  | none =>
    { base with
      title := none,
      text := none,
      summary := none,
      keywords := none,
      error := some "no_ndjson_match" }

/-- `records_to_insert`: the merge loop visits every CSV row once and
appends exactly one record for it. -/
def mergeBatch (encode : String → Option (List Int)) (modelLoaded : Bool)
    (log : List LogEntry) (rows : List SourceRow) : List EnrichedRecord :=
  rows.map (mergeRow encode modelLoaded log)

/-- Does the record carry any populated content field? -/
def carriesRealContent (r : EnrichedRecord) : Prop :=
  r.title ≠ none ∨ r.text ≠ none ∨ r.summary ≠ none ∨ r.keywords ≠ none

/-- A concrete row whose url has an error-marked NDJSON entry. -/
def cexRow : SourceRow := ⟨none, none, some "http://x/a", none, none⟩

/-- A concrete one-line log whose only entry is a parse failure. -/
def cexLog : List LogEntry :=
  [⟨"http://x/a", none, none, none, none, some "parse_error: ValueError: boom"⟩]

/-- Claim C2 counterexample: the merge copies NDJSON keys with
`if k != error-key`, so the record merged for a row whose `ParsedArticle`
carries an error marker has null content fields and no marker at all —
it carries none of real content, a parse-error marker, or a no-match
marker, and the error marker of the article is not preserved. -/
theorem merge_drops_error_marker_counterexample :
    ¬(carriesRealContent (mergeRow (fun _ => none) true cexLog cexRow)
        ∨ (mergeRow (fun _ => none) true cexLog cexRow).error ≠ none) ∧
    (ndjsonLookup cexLog "http://x/a").map LogEntry.error
      = some (some "parse_error: ValueError: boom") := by
  constructor
  · intro h
    rcases h with h | h
    · rcases h with h | h | h | h <;> exact h rfl
    · exact h rfl
  · rfl

/-- Claim C2 (amended): the merge loop emits exactly one record per
`SourceRow`; a row with no NDJSON entry for its url gets null content
fields and the `no_ndjson_match` marker, while a row with an NDJSON
entry gets the content fields of that entry with any error marker dropped
(`error` is absent from the merged record even when the entry carries a
parse-error or fetch-failure marker). -/
theorem merge_one_record_per_row_error_dropped
    (encode : String → Option (List Int)) (modelLoaded : Bool)
    (log : List LogEntry) (rows : List SourceRow) :
    (mergeBatch encode modelLoaded log rows).length = rows.length ∧
    (∀ i (hi : i < rows.length)
        (hi2 : i < (mergeBatch encode modelLoaded log rows).length),
      (mergeBatch encode modelLoaded log rows).get ⟨i, hi2⟩
          = mergeRow encode modelLoaded log (rows.get ⟨i, hi⟩)) ∧
    (∀ row : SourceRow,
      (∀ u, row.sourceurl = some u → ndjsonLookup log u = none →
        (mergeRow encode modelLoaded log row).error = some "no_ndjson_match" ∧
        (mergeRow encode modelLoaded log row).title = none ∧
        (mergeRow encode modelLoaded log row).text = none ∧
        (mergeRow encode modelLoaded log row).summary = none ∧
        (mergeRow encode modelLoaded log row).keywords = none) ∧
      (row.sourceurl = none →
        (mergeRow encode modelLoaded log row).error = some "no_ndjson_match") ∧
      (∀ u a, row.sourceurl = some u → ndjsonLookup log u = some a →
        (mergeRow encode modelLoaded log row).title = a.title ∧
        (mergeRow encode modelLoaded log row).text = a.text ∧
        (mergeRow encode modelLoaded log row).summary = a.summary ∧
        (mergeRow encode modelLoaded log row).keywords = a.keywords ∧
        (mergeRow encode modelLoaded log row).error = none)) := by
  refine ⟨by simp [mergeBatch], ?_, ?_⟩
  · intro i hi hi2
    simp [mergeBatch]
  · intro row
    refine ⟨?_, ?_, ?_⟩
    · intro u hu hnone
      simp [mergeRow, hu, hnone, baseRecord]
    · intro hu
      simp [mergeRow, hu, baseRecord]
    · intro u a hu ha
      rw [mergeRow]
      simp only [hu, ha]
      by_cases hs : summaryTruthy a.summary = true
      · simp only [hs, if_true]
        cases hemb : get_embeddings encode modelLoaded a.summary "sentencetransformer" with
        | none => simp [baseRecord]
        | some v =>
          by_cases hv : v.isEmpty <;> simp [hv, baseRecord]
      · simp [hs, baseRecord]

/-- Witness for the amended C2: in a two-row batch over the error-marked
log, both rows yield records, the matched one with the marker dropped
and the unmatched one flagged `no_ndjson_match`. -/
theorem merge_one_record_per_row_error_dropped_witness :
    (mergeRow (fun _ => none) true cexLog cexRow).error = none ∧
    (mergeRow (fun _ => none) true cexLog
        ⟨none, none, some "http://x/missing", none, none⟩).error
      = some "no_ndjson_match" := by
  have h := merge_one_record_per_row_error_dropped (fun _ => none) true cexLog
    [cexRow, ⟨none, none, some "http://x/missing", none, none⟩]
  refine ⟨((h.2.2 cexRow).2.2 "http://x/a"
      ⟨"http://x/a", none, none, none, none,
        some "parse_error: ValueError: boom"⟩ rfl (by rfl)).2.2.2.2, ?_⟩
  exact ((h.2.2 ⟨none, none, some "http://x/missing", none, none⟩).1
      "http://x/missing" rfl (by rfl)).1

/-- Claim C7: a merged row whose summary fails the truthiness test
(absent, null, empty, whitespace-only) never attempts an embedding and
gets an explicit null `summary_embedding` with no error marker, while a
truthy summary whose `get_embeddings` attempt returns `None` gets the
`embedding_generation_failed` marker and no `summary_embedding` key —
"not attempted" and "attempted and failed" stay distinguishable. -/
theorem embedding_null_vs_failure_distinguished
    (encode : String → Option (List Int)) (modelLoaded : Bool)
    (log : List LogEntry) (row : SourceRow) (u : String) (a : LogEntry)
    (hurl : row.sourceurl = some u)
    (hfound : ndjsonLookup log u = some a) :
    (summaryTruthy a.summary = false →
      (mergeRow encode modelLoaded log row).summary_embedding = some none ∧
      (mergeRow encode modelLoaded log row).embedding_error = none) ∧
    (summaryTruthy a.summary = true →
      get_embeddings encode modelLoaded a.summary "sentencetransformer" = none →
      (mergeRow encode modelLoaded log row).embedding_error
          = some "embedding_generation_failed" ∧
      (mergeRow encode modelLoaded log row).summary_embedding = none) := by
  constructor
  · intro hs
    simp [mergeRow, hurl, hfound, hs, baseRecord]
  · intro hs hemb
    simp [mergeRow, hurl, hfound, hs, hemb, baseRecord]

/-- Witness for C7: with a whitespace-only summary the embedding is an
explicit null; with a real summary and a failing encoder the failure
marker is set. -/
theorem embedding_null_vs_failure_distinguished_witness :
    (mergeRow (fun _ => none) true
        [⟨"http://x/w", some "t", some "b", some "  ", some [], none⟩]
        ⟨none, none, some "http://x/w", none, none⟩).summary_embedding
      = some none ∧
    (mergeRow (fun _ => none) true
        [⟨"http://x/s", some "t", some "b", some "real summary", some [], none⟩]
        ⟨none, none, some "http://x/s", none, none⟩).embedding_error
      = some "embedding_generation_failed" := by
  refine ⟨(embedding_null_vs_failure_distinguished (fun _ => none) true
      [⟨"http://x/w", some "t", some "b", some "  ", some [], none⟩]
      ⟨none, none, some "http://x/w", none, none⟩ "http://x/w"
      ⟨"http://x/w", some "t", some "b", some "  ", some [], none⟩
      rfl (by rfl)).1 (by rfl) |>.1, ?_⟩
  exact (embedding_null_vs_failure_distinguished (fun _ => none) true
      [⟨"http://x/s", some "t", some "b", some "real summary", some [], none⟩]
      ⟨none, none, some "http://x/s", none, none⟩ "http://x/s"
      ⟨"http://x/s", some "t", some "b", some "real summary", some [], none⟩
      rfl (by rfl)).2 (by rfl) (by rfl) |>.1

theorem filterMap_sourceurl_eq (rows : List SourceRow) :
    rows.filterMap (fun r => r.sourceurl)
      = (rows.filter (fun r => r.sourceurl.isSome)).filterMap (fun r => r.sourceurl) := by
  induction rows with
  | nil => rfl
  | cons r rs ih =>
    cases h : r.sourceurl with
    | none => simp [List.filterMap_cons, List.filter_cons, h, ih]
    | some u => simp [List.filterMap_cons, List.filter_cons, h, ih]

/-- Claim C9: rows with a null `SOURCEURL` contribute nothing to the
fetch list (`dropna`), yet the merge loop still emits exactly one record
for each of them, flagged `no_ndjson_match` with null content fields. -/
theorem null_url_rows_degraded_not_dropped
    (encode : String → Option (List Int)) (modelLoaded : Bool)
    (log : List LogEntry) (rows : List SourceRow) :
    urls_to_fetch rows
        = urls_to_fetch (rows.filter (fun r => r.sourceurl.isSome)) ∧
    (mergeBatch encode modelLoaded log rows).length = rows.length ∧
    (∀ i (hi : i < rows.length)
        (hi2 : i < (mergeBatch encode modelLoaded log rows).length),
      (rows.get ⟨i, hi⟩).sourceurl = none →
        ((mergeBatch encode modelLoaded log rows).get ⟨i, hi2⟩).error
            = some "no_ndjson_match" ∧
        ((mergeBatch encode modelLoaded log rows).get ⟨i, hi2⟩).title = none ∧
        ((mergeBatch encode modelLoaded log rows).get ⟨i, hi2⟩).text = none ∧
        ((mergeBatch encode modelLoaded log rows).get ⟨i, hi2⟩).summary = none ∧
        ((mergeBatch encode modelLoaded log rows).get ⟨i, hi2⟩).keywords = none) := by
  refine ⟨?_, by simp [mergeBatch], ?_⟩
  · unfold urls_to_fetch
    rw [filterMap_sourceurl_eq]
  · intro i hi hi2 hnull
    have hget : (mergeBatch encode modelLoaded log rows).get ⟨i, hi2⟩
        = mergeRow encode modelLoaded log (rows.get ⟨i, hi⟩) := by
      simp [mergeBatch]
    rw [hget]
    simp only [List.get_eq_getElem] at hnull
    simp [mergeRow, hnull, baseRecord]

/-- Witness for C9: a singleton batch whose only row has a null url
submits no urls and still yields one flagged record. -/
theorem null_url_rows_degraded_not_dropped_witness :
    urls_to_fetch [(⟨none, none, none, none, none⟩ : SourceRow)] = [] ∧
    ((mergeBatch (fun _ => none) true [] [⟨none, none, none, none, none⟩]).get
        ⟨0, by decide⟩).error = some "no_ndjson_match" := by
  have h := null_url_rows_degraded_not_dropped (fun _ => none) true []
    [⟨none, none, none, none, none⟩]
  exact ⟨by decide, (h.2.2 0 (by decide) (by decide) (by rfl)).1⟩

/-- The timestamp text of a blob name: strip the source folder from the
name (`str.replace`, every occurrence) and cut at `_cleaned.csv`. -/
def tsStrOf (cleanedPref name : String) : String :=
  (pySplit "_cleaned.csv" (pyReplace name cleanedPref "")).headD ""

/-- The filename filter of the scan: ends with `_cleaned.csv` and starts with
the source folder. -/
def isCandidate (cleanedPref name : String) : Bool :=
  pyEndsWith name "_cleaned.csv" && pyStartsWith name cleanedPref

/-- One blob of the scan loop: an unparseable timestamp is skipped with
a warning (`acc` kept); a parsed one replaces the running oldest exactly
when strictly older. `parseTs` models `datetime.strptime` with format
`%Y%m%d%H%M%S`, valued in an order-preserving timestamp key. -/
def scanStep (parseTs : String → Option Nat) (cleanedPref : String)
    (acc : Option (String × Nat)) (name : String) : Option (String × Nat) :=
  if isCandidate cleanedPref name then
    match parseTs (tsStrOf cleanedPref name) with
    | some ts =>
      match acc with
      | none => some (name, ts)
      | some (n0, t0) => if ts < t0 then some (name, ts) else some (n0, t0)
    | none => acc
  else acc

/-- The whole scan over the listed blobs, starting from no oldest. -/
def scanOldest (parseTs : String → Option Nat) (cleanedPref : String)
    (blobs : List String) : Option (String × Nat) :=
  blobs.foldl (scanStep parseTs cleanedPref) none

theorem scanStep_eq_none (parseTs : String → Option Nat) (pref name : String)
    (acc : Option (String × Nat))
    (h : scanStep parseTs pref acc name = none) :
    acc = none ∧
    ∀ tx, ¬(isCandidate pref name = true ∧ parseTs (tsStrOf pref name) = some tx) := by
  by_cases hc : isCandidate pref name = true
  · cases hp : parseTs (tsStrOf pref name) with
    | none =>
      have hacc : acc = none := by simpa [scanStep, hc, hp] using h
      exact ⟨hacc, fun tx hx => Option.noConfusion hx.2⟩
    | some ts =>
      exfalso
      cases acc with
      | none => simp [scanStep, hc, hp] at h
      | some p =>
        rcases p with ⟨n0, t0⟩
        by_cases hlt : ts < t0 <;> simp [scanStep, hc, hp, hlt] at h
  · have hacc : acc = none := by simpa [scanStep, hc] using h
    exact ⟨hacc, fun tx hx => hc hx.1⟩

theorem scanStep_eq_some (parseTs : String → Option Nat) (pref name : String)
    (acc : Option (String × Nat)) (n1 : String) (t1 : Nat)
    (h : scanStep parseTs pref acc name = some (n1, t1)) :
    (acc = some (n1, t1) ∨
      (n1 = name ∧ isCandidate pref name = true ∧
        parseTs (tsStrOf pref name) = some t1)) ∧
    (∀ tx, isCandidate pref name = true →
      parseTs (tsStrOf pref name) = some tx → t1 ≤ tx) ∧
    (∀ n0 t0, acc = some (n0, t0) → t1 ≤ t0) := by
  by_cases hc : isCandidate pref name = true
  · cases hp : parseTs (tsStrOf pref name) with
    | none =>
      have hacc : acc = some (n1, t1) := by simpa [scanStep, hc, hp] using h
      refine ⟨Or.inl hacc, ?_, ?_⟩
      · intro tx _ hx
        exact Option.noConfusion hx
      · intro n0 t0 ha
        rw [ha] at hacc
        simp only [Option.some.injEq, Prod.mk.injEq] at hacc
        rw [← hacc.2]
    | some ts =>
      cases acc with
      | none =>
        have hx : name = n1 ∧ ts = t1 := by
          have h2 := h
          simp [scanStep, hc, hp] at h2
          exact h2
        obtain ⟨rfl, rfl⟩ := hx
        refine ⟨Or.inr ⟨rfl, hc, rfl⟩, ?_, fun n0 t0 ha => Option.noConfusion ha⟩
        intro tx _ hx2
        exact Nat.le_of_eq (Option.some.inj hx2)
      | some p =>
        rcases p with ⟨n0, t0⟩
        by_cases hlt : ts < t0
        · have hx : name = n1 ∧ ts = t1 := by
            have h2 := h
            simp [scanStep, hc, hp, hlt] at h2
            exact h2
          obtain ⟨rfl, rfl⟩ := hx
          refine ⟨Or.inr ⟨rfl, hc, rfl⟩, ?_, ?_⟩
          · intro tx _ hx2
            exact Nat.le_of_eq (Option.some.inj hx2)
          · intro n0a t0a ha
            simp only [Option.some.injEq, Prod.mk.injEq] at ha
            rw [← ha.2]
            exact Nat.le_of_lt hlt
        · have hx : n0 = n1 ∧ t0 = t1 := by
            have h2 := h
            simp [scanStep, hc, hp, hlt] at h2
            exact h2
          obtain ⟨rfl, rfl⟩ := hx
          refine ⟨Or.inl rfl, ?_, ?_⟩
          · intro tx _ hx2
            have h3 : ts = tx := Option.some.inj hx2
            rw [← h3]
            exact Nat.le_of_not_lt hlt
          · intro n0a t0a ha
            simp only [Option.some.injEq, Prod.mk.injEq] at ha
            rw [← ha.2]
  · have hacc : acc = some (n1, t1) := by simpa [scanStep, hc] using h
    refine ⟨Or.inl hacc, fun tx hcand _ => absurd hcand hc, ?_⟩
    intro n0 t0 ha
    rw [ha] at hacc
    simp only [Option.some.injEq, Prod.mk.injEq] at hacc
    rw [← hacc.2]

theorem scanFold_inv (parseTs : String → Option Nat) (pref : String)
    (blobs : List String) :
    ∀ acc : Option (String × Nat),
      (blobs.foldl (scanStep parseTs pref) acc = none →
        acc = none ∧ ∀ m ∈ blobs, ∀ tm,
          ¬(isCandidate pref m = true ∧ parseTs (tsStrOf pref m) = some tm)) ∧
      (∀ n t, blobs.foldl (scanStep parseTs pref) acc = some (n, t) →
        (acc = some (n, t) ∨
          (n ∈ blobs ∧ isCandidate pref n = true ∧
            parseTs (tsStrOf pref n) = some t)) ∧
        (∀ m ∈ blobs, ∀ tm, isCandidate pref m = true →
          parseTs (tsStrOf pref m) = some tm → t ≤ tm) ∧
        (∀ n0 t0, acc = some (n0, t0) → t ≤ t0)) := by
  induction blobs with
  | nil =>
    intro acc
    refine ⟨fun h => ⟨h, by simp⟩, fun n t h => ⟨Or.inl h, by simp, ?_⟩⟩
    intro n0 t0 ha
    rw [ha] at h
    cases h
    exact Nat.le_refl _
  | cons x xs ih =>
    intro acc
    rw [List.foldl_cons]
    constructor
    · intro h
      have h1 := (ih (scanStep parseTs pref acc x)).1 h
      have h2 := scanStep_eq_none parseTs pref x acc h1.1
      refine ⟨h2.1, fun m hm tm => ?_⟩
      rcases List.mem_cons.mp hm with hmx | hmx
      · subst hmx; exact h2.2 tm
      · exact h1.2 m hmx tm
    · intro n t h
      have h1 := (ih (scanStep parseTs pref acc x)).2 n t h
      refine ⟨?_, ?_, ?_⟩
      · rcases h1.1 with hacc | hmem
        · have h2 := scanStep_eq_some parseTs pref x acc n t hacc
          rcases h2.1 with h3 | h3
          · exact Or.inl h3
          · exact Or.inr ⟨h3.1 ▸ List.mem_cons_self _ _, h3.1 ▸ h3.2.1, h3.1 ▸ h3.2.2⟩
        · exact Or.inr ⟨List.mem_cons_of_mem _ hmem.1, hmem.2⟩
      · intro m hm tm hcand hparse
        rcases List.mem_cons.mp hm with hmx | hmx
        · subst hmx
          cases hstep : scanStep parseTs pref acc m with
          | none =>
            exact absurd ⟨hcand, hparse⟩ ((scanStep_eq_none parseTs pref m acc hstep).2 tm)
          | some p =>
            cases p with
            | mk n1 t1 =>
              have h2 := scanStep_eq_some parseTs pref m acc n1 t1 hstep
              have ht1 : t1 ≤ tm := h2.2.1 tm hcand hparse
              have ht : t ≤ t1 := by
                rw [hstep] at h1
                exact h1.2.2 n1 t1 rfl
              exact Nat.le_trans ht ht1
        · exact h1.2.1 m hmx tm hcand hparse
      · intro n0 t0 ha
        cases hstep : scanStep parseTs pref acc x with
        | none =>
          have := (scanStep_eq_none parseTs pref x acc hstep).1
          rw [this] at ha
          cases ha
        | some p =>
          cases p with
          | mk n1 t1 =>
            have h2 := scanStep_eq_some parseTs pref x acc n1 t1 hstep
            have ht : t ≤ t1 := by
              rw [hstep] at h1
              exact h1.2.2 n1 t1 rfl
            exact Nat.le_trans ht (h2.2.2 n0 t0 ha)

/-- Claim C4: the scan selects a listed candidate whose filename
timestamp parses and is minimal among all parseable candidates;
unparseable filenames are never selected and never abort the scan —
whenever any parseable candidate is listed, something is selected. -/
theorem scan_selects_oldest_parseable
    (parseTs : String → Option Nat) (pref : String) (blobs : List String) :
    (∀ n t, scanOldest parseTs pref blobs = some (n, t) →
      n ∈ blobs ∧ isCandidate pref n = true ∧
      parseTs (tsStrOf pref n) = some t ∧
      ∀ m ∈ blobs, ∀ tm, isCandidate pref m = true →
        parseTs (tsStrOf pref m) = some tm → t ≤ tm) ∧
    (∀ m ∈ blobs, ∀ tm, isCandidate pref m = true →
      parseTs (tsStrOf pref m) = some tm →
      scanOldest parseTs pref blobs ≠ none) := by
  have hinv := scanFold_inv parseTs pref blobs none
  constructor
  · intro n t h
    have h1 := hinv.2 n t h
    rcases h1.1 with hacc | hmem
    · cases hacc
    · exact ⟨hmem.1, hmem.2.1, hmem.2.2, h1.2.1⟩
  · intro m hm tm hcand hparse h
    exact (hinv.1 h).2 m hm tm ⟨hcand, hparse⟩

/-- Sum the decimal digits of a character list into a number. -/
def digitsToNat (cs : List Char) : Nat :=
  cs.foldl (fun acc c => acc * 10 + (c.toNat - 48)) 0

/-- Gregorian leap-year rule, as `datetime` validates dates. -/
def isLeap (y : Nat) : Bool :=
  (y % 4 == 0 && y % 100 != 0) || (y % 400 == 0)

/-- Days in a month, as `datetime` validates dates. -/
def daysInMonth (y m : Nat) : Nat :=
  if m = 2 then (if isLeap y then 29 else 28)
  else if m = 4 || m = 6 || m = 9 || m = 11 then 30
  else 31

/-- `datetime.strptime(ts, "%Y%m%d%H%M%S")` on the 14-digit shape of
the naming convention, failing (a caught `ValueError`) on any other
shape or an invalid calendar date; chronological order of valid stamps
is the numeric order of the digit string, which the key preserves. -/
def strptimeYmdHms (s : String) : Option Nat :=
  let cs := s.data
  if cs.length = 14 && cs.all Char.isDigit then
    let y := digitsToNat (cs.take 4)
    let mo := digitsToNat ((cs.drop 4).take 2)
    let d := digitsToNat ((cs.drop 6).take 2)
    let h := digitsToNat ((cs.drop 8).take 2)
    let mi := digitsToNat ((cs.drop 10).take 2)
    let sec := digitsToNat ((cs.drop 12).take 2)
    if 1 ≤ y && 1 ≤ mo && mo ≤ 12 && 1 ≤ d && d ≤ daysInMonth y mo &&
        h ≤ 23 && mi ≤ 59 && sec ≤ 59 then
      some (digitsToNat cs)
    else none
  else none

/-- Witness for C4: among an older file, a newer file and a file with a
garbage timestamp, the scan picks the older parseable one. -/
theorem scan_selects_oldest_parseable_witness :
    scanOldest strptimeYmdHms "cleaned_data/"
        ["cleaned_data/20240102000000_cleaned.csv",
         "cleaned_data/garbage_cleaned.csv",
         "cleaned_data/20240101000000_cleaned.csv"]
      = some ("cleaned_data/20240101000000_cleaned.csv", 20240101000000) ∧
    "cleaned_data/20240101000000_cleaned.csv" ∈
        ["cleaned_data/20240102000000_cleaned.csv",
         "cleaned_data/garbage_cleaned.csv",
         "cleaned_data/20240101000000_cleaned.csv"] ∧
    strptimeYmdHms
        (tsStrOf "cleaned_data/" "cleaned_data/20240101000000_cleaned.csv")
      = some 20240101000000 := by
  have h := (scan_selects_oldest_parseable strptimeYmdHms "cleaned_data/"
      ["cleaned_data/20240102000000_cleaned.csv",
       "cleaned_data/garbage_cleaned.csv",
       "cleaned_data/20240101000000_cleaned.csv"]).1
    "cleaned_data/20240101000000_cleaned.csv" 20240101000000 (by rfl)
  exact ⟨by rfl, h.1, h.2.2.1⟩

/-- Add a key to the object store (`copy_blob` to the destination). -/
def insertKey (k : String) (st : List String) : List String :=
  if k ∈ st then st else k :: st

/-- Remove a key from the object store (`blob.delete`). -/
def removeKey (k : String) (st : List String) : List String :=
  st.filter (fun x => x ≠ k)

/-- Steps 4 and 5 of the batch loop, observed at the object store, with
failure injection: `insert_many` runs only when records exist and its
failure raises out of the whole batch `try`, skipping the archive step;
inside the archive step, `copy_blob` runs first and its failure is
caught by the inner handler before the delete can run; `delete` failure
is likewise caught after the copy took effect. -/
def persistAndArchive (recordsNonEmpty insertOk copyOk deleteOk : Bool)
    (st : List String) (srcKey dstKey : String) : List String :=
  if recordsNonEmpty && !insertOk then
    st
  else if copyOk then
    let st1 := insertKey dstKey st
    if deleteOk then removeKey srcKey st1 else st1
  else st

theorem mem_insertKey_iff (k a : String) (st : List String) :
    a ∈ insertKey k st ↔ a = k ∨ a ∈ st := by
  unfold insertKey
  by_cases hk : k ∈ st
  · simp only [if_pos hk]
    constructor
    · exact Or.inr
    · rintro (rfl | h)
      · exact hk
      · exact h
  · simp [if_neg hk]

theorem mem_removeKey_iff (k a : String) (st : List String) :
    a ∈ removeKey k st ↔ a ∈ st ∧ a ≠ k := by
  simp [removeKey]

/-- Claim C5: the source batch file is deleted only after both the bulk
insert (when records existed) and the archive copy succeeded; under a
forced persistence failure the store is untouched — the source file is
still at its original key and nothing appeared at the archive key. -/
theorem source_deleted_only_after_insert_and_copy
    (recordsNonEmpty insertOk copyOk deleteOk : Bool)
    (st : List String) (srcKey dstKey : String)
    (hsrc : srcKey ∈ st) (hdst : dstKey ∉ st) (hne : srcKey ≠ dstKey) :
    (recordsNonEmpty = true → insertOk = false →
      persistAndArchive recordsNonEmpty insertOk copyOk deleteOk st srcKey dstKey = st ∧
      srcKey ∈ persistAndArchive recordsNonEmpty insertOk copyOk deleteOk st srcKey dstKey ∧
      dstKey ∉ persistAndArchive recordsNonEmpty insertOk copyOk deleteOk st srcKey dstKey) ∧
    (srcKey ∉ persistAndArchive recordsNonEmpty insertOk copyOk deleteOk st srcKey dstKey →
      (recordsNonEmpty = true → insertOk = true) ∧ copyOk = true ∧ deleteOk = true ∧
      dstKey ∈ persistAndArchive recordsNonEmpty insertOk copyOk deleteOk st srcKey dstKey) := by
  constructor
  · intro hr hi
    subst hr; subst hi
    simp only [persistAndArchive, Bool.not_false, Bool.and_true]
    exact ⟨rfl, hsrc, hdst⟩
  · intro hdel
    cases recordsNonEmpty <;> cases insertOk <;> cases copyOk <;> cases deleteOk <;>
      simp_all [persistAndArchive, mem_insertKey_iff, mem_removeKey_iff, Ne.symm hne]

/-- Witness for C5: a forced failing bulk insert leaves a one-file store
unchanged. -/
theorem source_deleted_only_after_insert_and_copy_witness :
    persistAndArchive true false true true
        ["cleaned_data/20240101000000_cleaned.csv"]
        "cleaned_data/20240101000000_cleaned.csv"
        "backup_data/20240101000000_cleaned.csv"
      = ["cleaned_data/20240101000000_cleaned.csv"] :=
  ((source_deleted_only_after_insert_and_copy true false true true
      ["cleaned_data/20240101000000_cleaned.csv"]
      "cleaned_data/20240101000000_cleaned.csv"
      "backup_data/20240101000000_cleaned.csv"
      (by decide) (by decide) (by decide)).1 rfl rfl).1

/-- Where one pass of the batch loop body fails, if anywhere.  The first
two failure points sit before the line that binds
`local_ndjson_output_path`; the last two after it. -/
inductive BatchFailure
  | downloadFailed
  | readCsvFailed
  | mergeFailed
  | insertFailed
deriving DecidableEq

/-- Does the failure hit before `local_ndjson_output_path` is bound? -/
def failsBeforeNdjsonBound : BatchFailure → Bool
  | .downloadFailed => true
  | .readCsvFailed => true
  | .mergeFailed => false
  | .insertFailed => false

/-- Outcome of one batch-loop iteration: control returns to the scan
with the binding environment as the next iteration sees it, or an
unhandled exception escapes the loop and the process dies. -/
inductive IterResult
  | next (ndjsonVar : Option String)
  | crash (exn : String)
deriving DecidableEq

/-- One iteration of the batch loop at the except/finally boundary.
`ndjsonVar` is the binding of `local_ndjson_output_path` left over from
earlier iterations (`none` on the first).  The except clause absorbs any
body failure; the finally clause then evaluates
`os.path.exists(local_ndjson_output_path)`, which raises `NameError`
when the body failed before the binding line and no earlier iteration
bound the name. -/
def loopIteration (fail : Option BatchFailure) (ndjsonVar : Option String)
    (ndjsonPath : String) : IterResult :=
  let bound : Option String :=
    match fail with
    | some f => if failsBeforeNdjsonBound f then ndjsonVar else some ndjsonPath
    | none => some ndjsonPath
  match bound with
  | none => .crash "NameError: name local_ndjson_output_path is not defined"
  | some p => .next (some p)

/-- Claim C6 failing input: a download failure on the first loop
iteration (no earlier binding of `local_ndjson_output_path`) makes the
finally-block cleanup raise `NameError` and the process terminates
instead of proceeding to the next scan; the same failure on a later
iteration (the name still bound to the path of the previous batch) does
proceed. -/
theorem first_iteration_download_failure_crashes :
    loopIteration (some .downloadFailed) none
        "extracted_articles_local/20240101000000_articles.ndjson"
      = .crash "NameError: name local_ndjson_output_path is not defined" ∧
    loopIteration (some .downloadFailed)
        (some "extracted_articles_local/20231231000000_articles.ndjson")
        "extracted_articles_local/20240101000000_articles.ndjson"
      = .next (some "extracted_articles_local/20231231000000_articles.ndjson") := by
  exact ⟨rfl, rfl⟩

end GlobaLens
